import Mathlib

/-!
Verification of the `ThermalData` class of the IR_FLife repository
(`src/ThermalData.py`) against its natural-language specification.

The video cube is modelled as a dimensioned function into the reals;
numpy slicing, `np.fft.rfft` / `np.fft.rfftfreq`, the boolean-mask
selections, `np.argmin`-based nearest lookup, `np.where`-based peak
lookup and the per-pixel life loop of `get_life` are each translated
into an explicit definition below.  Machine floats are modelled as
exact real (or, for frequency bookkeeping, rational) arithmetic, and
`1/0` denotes the division-by-zero value that numpy reports as `inf`.
The external FLife estimators (TovoBenasciutti, Dirlik, Rainflow) are
opaque third-party collaborators and enter as function parameters.
-/

set_option maxRecDepth 4000

namespace IRFLife

/-- Python `int(q)` on a float: truncation toward zero. -/
def pyInt (q : ℚ) : ℤ := if 0 ≤ q then ⌊q⌋ else ⌈q⌉

/-- Rounding half to even on the integers, the tie rule of `np.round`. -/
def roundHalfEven (q : ℚ) : ℤ :=
  if q - ⌊q⌋ < 1/2 then ⌊q⌋
  else if 1/2 < q - ⌊q⌋ then ⌊q⌋ + 1
  else if Even (⌊q⌋ : ℤ) then ⌊q⌋ else ⌊q⌋ + 1

/-- Models `np.round(q, 2)`: round to two decimal places. -/
def round2 (q : ℚ) : ℚ := (roundHalfEven (q * 100) : ℚ) / 100

/-- Resolution of a Python slice bound against an axis of length `len`
(negative bounds count from the end, everything is clamped into range). -/
def pyIdx (len : ℕ) (v : ℤ) : ℕ := if v < 0 then (len + v).toNat else min v.toNat len

/-- A three-dimensional numpy array indexed `[frame, row, col]`. -/
structure Cube where
  frames : ℕ
  rows : ℕ
  cols : ℕ
  val : ℕ → ℕ → ℕ → ℝ

/-- Line 59 / 208 of the source: `self.ds = self.x - self.x[0,:,:]`,
the delta-stress cube obtained by subtracting the first frame. -/
def Cube.deltaRef (c : Cube) : Cube :=
  ⟨c.frames, c.rows, c.cols, fun t i j => c.val t i j - c.val 0 i j⟩

/-- Numpy slicing `c[:, y:(y+h), x:(x+w)]` (lines 159 and 225). -/
def Cube.crop (c : Cube) (x y w h : ℤ) : Cube :=
  ⟨c.frames,
   pyIdx c.rows (y + h) - pyIdx c.rows y,
   pyIdx c.cols (x + w) - pyIdx c.cols x,
   fun t i j => c.val t (i + pyIdx c.rows y) (j + pyIdx c.cols x)⟩

/-- The time history of pixel `(i, j)`: `c[:, i, j]` as a list of frames. -/
def histAt (c : Cube) (i j : ℕ) : List ℝ :=
  (List.range c.frames).map (fun t => c.val t i j)

/-- Bin `m` of `np.fft.rfft(xs, n)`: the discrete Fourier sum
`Σ_t xs[t] · exp(-2πi·m·t/n)` over `t < n`, padding `xs` with zeros. -/
noncomputable def rfftVal (xs : List ℝ) (n : ℕ) (m : ℕ) : ℂ :=
  ∑ t ∈ Finset.range n,
    (xs.getD t 0 : ℂ) * Complex.exp ((-2 * Real.pi * m * t / n : ℝ) * Complex.I)

/-- One-sided amplitude of bin `m`: `np.abs(np.fft.rfft(xs, n) * 2 / n)[m]`. -/
noncomputable def amplAt (xs : List ℝ) (n : ℕ) (m : ℕ) : ℝ :=
  Complex.abs (rfftVal xs n m) * 2 / n

/-- The full one-sided amplitude spectrum, bins `0 .. n/2`. -/
noncomputable def fftList (xs : List ℝ) (n : ℕ) : List ℝ :=
  (List.range (n / 2 + 1)).map (amplAt xs n)

/-- Frequency of bin `m` of `np.fft.rfftfreq(n, dt)`: `m / (n·dt)`. -/
def freqQ (n : ℕ) (dt : ℚ) (m : ℕ) : ℚ := (m : ℚ) / ((n : ℚ) * dt)

/-- The list of frequency bins `np.fft.rfftfreq(n, dt)`. -/
def freqList (n : ℕ) (dt : ℚ) : List ℚ :=
  (List.range (n / 2 + 1)).map (freqQ n dt)

/-- `ThermalData._find_nearest`: value and first index minimising the
absolute difference to `v` (numpy `argmin` returns the first minimum). -/
def find_nearest (l : List ℚ) (v : ℚ) : ℚ × ℕ :=
  let d := l.map (fun a => |a - v|)
  let idx := match d.min? with
    | some m => d.findIdx (fun e => decide (e = m))
    | none => 0
  (l.getD idx 0, idx)

/-- The stored state of a `ThermalData` object. -/
structure TD where
  x : Cube
  dt : ℚ
  x_coord : Option ℚ
  y_coord : Option ℚ
  N : ℕ
  ds : Cube

/-- The constructor `ThermalData.__init__`: stores the video and `dt`,
sets `N = x.shape[0]` and `ds = x - x[0,:,:]`. -/
def TD.mkInit (x : Cube) (dt : ℚ) (xc yc : Option ℚ) : TD :=
  ⟨x, dt, xc, yc, x.frames, x.deltaRef⟩

/-- The band-pass default of `nf_identification`: `[5, 100]` Hz. -/
def nfBand (band_pass : Option (ℚ × ℚ)) : ℚ × ℚ := band_pass.getD (5, 100)

/-- ROI resolution of `nf_identification` (lines 154-157): an explicit
`location` is used as is; otherwise a `roi`-sized square is centred on
the stored click coordinates, upper-left corner
`int(int(coord) - (roi-1)/2)`.  (With the coordinates unset the Python
code would fail on `int(None)`; the claims only exercise states where
they are set, so the stored option is read with default `0`.) -/
def nfROI (s : TD) (location : Option (ℤ × ℤ × ℤ × ℤ)) (roi : ℤ) : ℤ × ℤ × ℤ × ℤ :=
  match location with
  | some l => l
  | none =>
      (pyInt ((pyInt (s.x_coord.getD 0) : ℚ) - ((roi : ℚ) - 1) / 2),
       pyInt ((pyInt (s.y_coord.getD 0) : ℚ) - ((roi : ℚ) - 1) / 2), roi, roi)

/-- Line 159: `self.ds = self.ds[:, y:(y+h), x:(x+w)]` — the ROI crop of
the *currently stored* delta cube, with `roi_size` defaulting to 5. -/
def nfCropped (s : TD) (location : Option (ℤ × ℤ × ℤ × ℤ)) (roi_size : Option ℤ) : Cube :=
  match nfROI s location (roi_size.getD 5) with
  | (x, y, w, h) => s.ds.crop x y w h

/-- The bin indices whose frequency lies strictly inside the pass band:
the boolean mask `(freq > band_pass[0]) & (freq < band_pass[1])`. -/
def bandIdx (N : ℕ) (dt : ℚ) (band_pass : Option (ℚ × ℚ)) : List ℕ :=
  (List.range (N / 2 + 1)).filter
    (fun m => decide ((nfBand band_pass).1 < freqQ N dt m ∧ freqQ N dt m < (nfBand band_pass).2))

/-- The flattened amplitudes `fft[(freq > low) & (freq < high)]` of the
cropped block: every pass-band bin of every pixel of the crop. -/
noncomputable def nfAmplList (s : TD) (location : Option (ℤ × ℤ × ℤ × ℤ))
    (roi_size : Option ℤ) (band_pass : Option (ℚ × ℚ)) : List ℝ :=
  (bandIdx s.N s.dt band_pass).flatMap (fun m =>
    (List.range (nfCropped s location roi_size).rows).flatMap (fun i =>
      (List.range (nfCropped s location roi_size).cols).map (fun j =>
        amplAt (histAt (nfCropped s location roi_size) i j) s.N m)))

/-- `ampl_nf = np.max(fft[(freq > low) & (freq < high)])` (line 164).
Numpy fails on an empty selection; the model totalises with `0`. -/
noncomputable def nfPeak (s : TD) (location : Option (ℤ × ℤ × ℤ × ℤ))
    (roi_size : Option ℤ) (band_pass : Option (ℚ × ℚ)) : ℝ :=
  (nfAmplList s location roi_size band_pass).max?.getD 0

/-- Bin `m` of the *whole* spectrum holds the peak value somewhere in the
crop.  This is the per-first-axis-index condition of `fft == ampl_nf`. -/
def nfMatch (s : TD) (location : Option (ℤ × ℤ × ℤ × ℤ))
    (roi_size : Option ℤ) (band_pass : Option (ℚ × ℚ)) (m : ℕ) : Prop :=
  ∃ i, i < (nfCropped s location roi_size).rows ∧
    ∃ j, j < (nfCropped s location roi_size).cols ∧
      amplAt (histAt (nfCropped s location roi_size) i j) s.N m
        = nfPeak s location roi_size band_pass

/-- `np.where(fft == ampl_nf)[0][0]` (line 165): the first axis-0 index,
in C order, at which the peak value occurs — i.e. the least bin index of
the *full* spectrum with a matching amplitude in any pixel of the crop. -/
noncomputable def nfIdx (s : TD) (location : Option (ℤ × ℤ × ℤ × ℤ))
    (roi_size : Option ℤ) (band_pass : Option (ℚ × ℚ)) : ℕ :=
  (List.range (s.N / 2 + 1)).findIdx
    (fun m => @decide (nfMatch s location roi_size band_pass m) (Classical.propDecidable _))

/-- `ThermalData.nf_identification` (lines 122-167): crops the stored
delta cube to the ROI (mutating `self.ds`), finds the in-band peak
amplitude of the cropped block, locates that value in the full spectrum,
and returns its bin frequency rounded to two decimals, together with the
updated object state. -/
noncomputable def nf_identification (s : TD) (location : Option (ℤ × ℤ × ℤ × ℤ))
    (roi_size : Option ℤ) (band_pass : Option (ℚ × ℚ)) : ℚ × TD :=
  (round2 (freqQ s.N s.dt (nfIdx s location roi_size band_pass)),
   { s with ds := nfCropped s location roi_size })

/-- The per-pixel life estimators of the external FLife package
(opaque third-party collaborators, see spec §4.4/§9): each maps a pixel
history and `dt` plus the S-N parameters `(C, k)` to a life value.
`tb` stands for `FLife.TovoBenasciutti(...).get_life(C, k, "method 2")`. -/
structure FLifeFns where
  tb : List ℝ → ℚ → ℝ → ℝ → ℝ
  dirlik : List ℝ → ℚ → ℝ → ℝ → ℝ
  rainflow : List ℝ → ℚ → ℝ → ℝ → ℝ

/-- The error taxonomy of `get_life`: every `raise ValueError(...)` of
the source is an `invalidParameter` carrying its message. -/
inductive Err where
  | invalidParameter : String → Err
deriving DecidableEq

/-- The result of `get_life`: a 2-D life map (with its spatial shape) or
an aggregated scalar. -/
inductive LifeOut where
  | map : ℕ → ℕ → (ℕ → ℕ → ℝ) → LifeOut
  | scalar : ℝ → LifeOut

/-- Line 211-212: `if f_span == None: f_span = 0.1`. -/
def defaultSpan (f_span : Option ℚ) : Option ℚ :=
  if f_span = none then some (1/10) else f_span

/-- Line 214-215: `if method == None: method = 'TovoBenasciutti'`. -/
def defaultMethod (method : Option String) : Option String :=
  if method = none then some "TovoBenasciutti" else method

/-- The accepted method names of line 220. -/
def validMethods : List (Option String) :=
  [some "Modal", some "TovoBenasciutti", some "Dirlik", some "Rainflow"]

/-- The cube the pixel loop of `get_life` runs over: the freshly
recomputed delta cube (line 208), cropped when a ROI is given (225). -/
def gridOf (x : Cube) (location : Option (ℤ × ℤ × ℤ × ℤ)) : Cube :=
  match location with
  | some (a, b, w, h) => x.deltaRef.crop a b w h
  | none => x.deltaRef

/-- Lines 243-245: the mask-selected `(freq, fft)` pairs of the window
`[f - sp, f + sp]` around the natural frequency. -/
noncomputable def windowPairs (hist : List ℝ) (N : ℕ) (dt : ℚ) (f sp : ℚ) : List (ℚ × ℝ) :=
  ((freqList N dt).zip (fftList hist N)).filter
    (fun p => decide (f - sp ≤ p.1 ∧ p.1 ≤ f + sp))

/-- Line 245: `damage = np.sum(x_peak / (C / y_peak**k))`. -/
noncomputable def windowDamage (hist : List ℝ) (N : ℕ) (dt : ℚ) (C k : ℝ) (f sp : ℚ) : ℝ :=
  ((windowPairs hist N dt f sp).map (fun p => (p.1 : ℝ) / (C / p.2 ^ k))).sum

/-- Lines 247-250: the nearest-single-bin damage and its life `1/damage`
(this branch of the source is unreachable, see the claim C4 theorems). -/
noncomputable def nearestLife (hist : List ℝ) (N : ℕ) (dt : ℚ) (C k : ℝ) (f : ℚ) : ℝ :=
  1 / (((find_nearest (freqList N dt) f).1 : ℝ) /
    (C / ((fftList hist N).getD (find_nearest (freqList N dt) f).2 0) ^ k))

/-- Lines 239-252, the Modal estimator on one pixel history:
`life = 1/damage`, with the window sum when `f_span` carries a value and
the nearest-bin lookup otherwise. -/
noncomputable def modalLife (hist : List ℝ) (N : ℕ) (dt : ℚ) (C k : ℝ)
    (f : ℚ) (fsp : Option ℚ) : ℝ :=
  match fsp with
  | some sp => 1 / windowDamage hist N dt C k f sp
  | none => nearestLife hist N dt C k f

/-- The per-pixel dispatch on the method string (lines 234-271). -/
noncomputable def pixelLife (es : FLifeFns) (meth : Option String) (hist : List ℝ)
    (N : ℕ) (dt : ℚ) (C k : ℝ) (f : Option ℚ) (fsp : Option ℚ) : ℝ :=
  match meth with
  | some "Modal" => modalLife hist N dt C k (f.getD 0) fsp
  | some "TovoBenasciutti" => es.tb hist dt C k
  | some "Dirlik" => es.dirlik hist dt C k
  | some "Rainflow" => es.rainflow hist dt C k
  | _ => 0

/-- The body of `ThermalData.get_life` (lines 169-276).  `self.N` and
`self.ds` are recomputed from `self.x` on entry (207-208), so the body
is a function of the stored video and `dt` only; the parameter checks
come in source order (`f_span == 0` before the method check), the
Modal `f == None` check sits inside the pixel loop and therefore only
fires when at least one pixel is processed, and with a ROI the spatial
mean `np.mean(life, axis=(0,1))` of the life map is returned. -/
noncomputable def get_life_core (es : FLifeFns) (x : Cube) (dt : ℚ) (C k : ℝ)
    (method : Option String) (f : Option ℚ) (location : Option (ℤ × ℤ × ℤ × ℤ))
    (f_span : Option ℚ) : Except Err LifeOut :=
  if defaultSpan f_span = some 0 then
    .error (.invalidParameter "Frequency span around natural frequency must not be zero")
  else if defaultMethod method ∉ validMethods then
    .error (.invalidParameter "Method must be one of: Modal, TovoBenasciutti, Dirlik, Rainflow")
  else if defaultMethod method = some "Modal" ∧ f = none ∧
      0 < (gridOf x location).rows * (gridOf x location).cols then
    .error (.invalidParameter "Natural frequency must be defined")
  else
    match location with
    | some _ =>
        .ok (.scalar ((∑ i ∈ Finset.range (gridOf x location).rows,
            ∑ j ∈ Finset.range (gridOf x location).cols,
              pixelLife es (defaultMethod method) (histAt (gridOf x location) i j)
                x.frames dt C k f (defaultSpan f_span)) /
          ((gridOf x location).rows * (gridOf x location).cols : ℕ)))
    | none =>
        .ok (.map (gridOf x location).rows (gridOf x location).cols
          (fun i j =>
            pixelLife es (defaultMethod method) (histAt (gridOf x location) i j)
              x.frames dt C k f (defaultSpan f_span)))

/-- `ThermalData.get_life` on a stored state: reads only `self.x` and
`self.dt` (everything else is recomputed at entry). -/
noncomputable def get_life (es : FLifeFns) (s : TD) (C k : ℝ)
    (method : Option String) (f : Option ℚ) (location : Option (ℤ × ℤ × ℤ × ℤ))
    (f_span : Option ℚ) : Except Err LifeOut :=
  get_life_core es s.x s.dt C k method f location f_span

/-! ### General helper lemmas -/

/-- A mask-filtered elementwise sum over zipped index maps equals the
conditional sum over the index range. -/
lemma zip_filter_map_sum (F : ℕ → ℚ) (A : ℕ → ℝ) (P : ℚ → Prop) [DecidablePred P]
    (g : ℚ → ℝ → ℝ) (n : ℕ) :
    (((((List.range n).map F).zip ((List.range n).map A)).filter
        (fun p => decide (P p.1))).map (fun p => g p.1 p.2)).sum
      = ∑ m ∈ Finset.range n, if P (F m) then g (F m) (A m) else 0 := by
  induction n with
  | zero => simp
  | succ n ih =>
      rw [List.range_succ, List.map_append, List.map_append,
        List.zip_append (by simp), List.filter_append, List.map_append, List.sum_append,
        ih, Finset.sum_range_succ]
      by_cases h : P (F n) <;> simp [h]

/-- The window damage of the Modal branch is the sum of
`freq/(C/ampl^k)` over exactly the bins whose frequency lies in
`[f - sp, f + sp]`. -/
lemma windowDamage_eq_sum (hist : List ℝ) (N : ℕ) (dt : ℚ) (C k : ℝ) (f sp : ℚ) :
    windowDamage hist N dt C k f sp
      = ∑ m ∈ Finset.range (N / 2 + 1),
          if f - sp ≤ freqQ N dt m ∧ freqQ N dt m ≤ f + sp
          then (freqQ N dt m : ℝ) / (C / amplAt hist N m ^ k) else 0 := by
  unfold windowDamage windowPairs freqList fftList
  exact zip_filter_map_sum (freqQ N dt) (amplAt hist N)
    (fun q => f - sp ≤ q ∧ q ≤ f + sp) (fun q a => (q : ℝ) / (C / a ^ k)) (N / 2 + 1)

/-- Factoring the fatigue coefficient out of the window damage:
`damage = S / C` with `S = Σ freq·ampl^k` independent of `C`. -/
lemma windowDamage_div (hist : List ℝ) (N : ℕ) (dt : ℚ) (C k : ℝ) (f sp : ℚ) :
    windowDamage hist N dt C k f sp
      = ((windowPairs hist N dt f sp).map (fun p => (p.1 : ℝ) * p.2 ^ k)).sum / C := by
  unfold windowDamage
  have hfun : (fun p : ℚ × ℝ => (p.1 : ℝ) / (C / p.2 ^ k))
      = fun p : ℚ × ℝ => (p.1 : ℝ) * p.2 ^ k * C⁻¹ := by
    funext p
    rw [div_div_eq_mul_div, div_eq_mul_inv]
  rw [hfun, List.sum_map_mul_right, ← div_eq_mul_inv]

/-- Delta-referencing commutes with spatial cropping. -/
lemma deltaRef_crop (c : Cube) (x y w h : ℤ) :
    (c.crop x y w h).deltaRef = c.deltaRef.crop x y w h := rfl

/-- The totalised `np.max` of a nonempty list is one of its entries. -/
lemma max_getD_mem (l : List ℝ) (hl : l ≠ []) : l.max?.getD 0 ∈ l := by
  cases hmax : l.max? with
  | none => rw [List.max?_eq_none_iff] at hmax; exact absurd hmax hl
  | some a => simpa using List.max?_mem max_choice hmax

/-- Every entry of a list is bounded by its totalised `np.max`. -/
lemma le_max_getD (l : List ℝ) (a : ℝ) (ha : a ∈ l) : a ≤ l.max?.getD 0 := by
  cases hmax : l.max? with
  | none => rw [List.max?_eq_none_iff] at hmax; simp [hmax] at ha
  | some b =>
      have hb := (List.max?_le_iff (fun _ _ _ => max_le_iff) hmax (x := b)).mp le_rfl a ha
      simpa using hb

/-! ### Concrete example data -/

/-- A four-frame single-pixel video whose delta history is `[0,1,0,0]`. -/
noncomputable def impCube : Cube := ⟨4, 1, 1, fun t _ _ => if t = 1 then 1 else 0⟩

/-- `ThermalData(impCube, 1/400)`: frequency bins 0, 100, 200 Hz. -/
noncomputable def sImp : TD := TD.mkInit impCube (1/400) none none

/-- A four-frame single-pixel video whose delta history is `[0,1,-1,0]`. -/
noncomputable def triCube : Cube :=
  ⟨4, 1, 1, fun t _ _ => if t = 1 then 1 else if t = 2 then -1 else 0⟩

/-- `ThermalData(triCube, 1/400)`: frequency bins 0, 100, 200 Hz. -/
noncomputable def sTri : TD := TD.mkInit triCube (1/400) none none

/-- A four-frame 2x2-pixel all-zero video. -/
noncomputable def twoCube : Cube := ⟨4, 2, 2, fun _ _ _ => 0⟩

/-- `ThermalData(twoCube, 1/100)`. -/
noncomputable def sTwo : TD := TD.mkInit twoCube (1/100) none none

lemma histAt_imp_delta : histAt impCube.deltaRef 0 0 = [0, 1, 0, 0] := by
  norm_num [histAt, Cube.deltaRef, impCube, List.range_succ]

lemma histAt_imp_crop :
    histAt (nfCropped sImp (some (0, 0, 1, 1)) none) 0 0 = [0, 1, 0, 0] := by
  norm_num [histAt, nfCropped, nfROI, Cube.crop, Cube.deltaRef, TD.mkInit, sImp,
    impCube, pyIdx, List.range_succ]

lemma histAt_tri_crop :
    histAt (nfCropped sTri (some (0, 0, 1, 1)) none) 0 0 = [0, 1, -1, 0] := by
  norm_num [histAt, nfCropped, nfROI, Cube.crop, Cube.deltaRef, TD.mkInit, sTri,
    triCube, pyIdx, List.range_succ]

lemma nfCropped_imp_rows : (nfCropped sImp (some (0, 0, 1, 1)) none).rows = 1 := by
  norm_num [nfCropped, nfROI, Cube.crop, Cube.deltaRef, TD.mkInit, sImp, impCube,
    pyIdx]

lemma nfCropped_imp_cols : (nfCropped sImp (some (0, 0, 1, 1)) none).cols = 1 := by
  norm_num [nfCropped, nfROI, Cube.crop, Cube.deltaRef, TD.mkInit, sImp, impCube,
    pyIdx]

lemma nfCropped_tri_rows : (nfCropped sTri (some (0, 0, 1, 1)) none).rows = 1 := by
  norm_num [nfCropped, nfROI, Cube.crop, Cube.deltaRef, TD.mkInit, sTri, triCube,
    pyIdx]

lemma nfCropped_tri_cols : (nfCropped sTri (some (0, 0, 1, 1)) none).cols = 1 := by
  norm_num [nfCropped, nfROI, Cube.crop, Cube.deltaRef, TD.mkInit, sTri, triCube,
    pyIdx]

/-- Only bin 2 (200 Hz) of the 0/100/200 Hz bins lies in `(150, 250)`. -/
lemma bandIdx_4_eval : bandIdx 4 (1/400) (some (150, 250)) = [2] := by
  unfold bandIdx nfBand
  norm_num [List.range_succ, List.filter_cons, freqQ]

/-- Every one-sided amplitude of the unit impulse history `[0,1,0,0]`
under a 4-point transform is `1/2`. -/
lemma amplAt_impulse (m : ℕ) : amplAt [0, 1, 0, 0] 4 m = 1 / 2 := by
  have hval : rfftVal [0, 1, 0, 0] 4 m
      = Complex.exp ((-2 * Real.pi * m * 1 / 4 : ℝ) * Complex.I) := by
    unfold rfftVal
    rw [Finset.sum_range_succ, Finset.sum_range_succ, Finset.sum_range_succ,
      Finset.sum_range_succ, Finset.sum_range_zero]
    norm_num [List.getD]
  unfold amplAt
  rw [hval, Complex.abs_exp_ofReal_mul_I]
  norm_num

/-- The 4-point spectrum of `[0,1,-1,0]`: bin 0 is empty (zero mean). -/
lemma amplAt_tri_zero : amplAt [0, 1, -1, 0] 4 0 = 0 := by
  have hval : rfftVal [0, 1, -1, 0] 4 0 = 0 := by
    unfold rfftVal
    rw [Finset.sum_range_succ, Finset.sum_range_succ, Finset.sum_range_succ,
      Finset.sum_range_succ, Finset.sum_range_zero]
    norm_num [List.getD]
  unfold amplAt
  rw [hval]
  norm_num

lemma rfftVal_tri_one : rfftVal [0, 1, -1, 0] 4 1 = 1 - Complex.I := by
  unfold rfftVal
  rw [Finset.sum_range_succ, Finset.sum_range_succ, Finset.sum_range_succ,
    Finset.sum_range_succ, Finset.sum_range_zero]
  norm_num [List.getD]
  rw [Complex.exp_mul_I, Complex.exp_mul_I]
  rw [show (-(2 * (Real.pi : ℂ)) / 4) = ((-(Real.pi / 2) : ℝ) : ℂ) by push_cast; ring,
    show (-(2 * (Real.pi : ℂ) * 2) / 4) = ((-Real.pi : ℝ) : ℂ) by push_cast; ring,
    ← Complex.ofReal_cos, ← Complex.ofReal_sin, ← Complex.ofReal_cos, ← Complex.ofReal_sin,
    Real.cos_neg, Real.sin_neg, Real.cos_neg, Real.sin_neg,
    Real.cos_pi_div_two, Real.sin_pi_div_two, Real.cos_pi, Real.sin_pi]
  push_cast
  ring

/-- The 4-point spectrum of `[0,1,-1,0]`: bin 1 has amplitude `√2/2`. -/
lemma amplAt_tri_one : amplAt [0, 1, -1, 0] 4 1 = Real.sqrt 2 / 2 := by
  unfold amplAt
  rw [rfftVal_tri_one]
  rw [Complex.abs_apply, Complex.normSq_apply]
  simp [Complex.sub_re, Complex.sub_im, Complex.one_re, Complex.one_im,
    Complex.I_re, Complex.I_im]
  norm_num
  ring

lemma rfftVal_tri_two : rfftVal [0, 1, -1, 0] 4 2 = -2 := by
  unfold rfftVal
  rw [Finset.sum_range_succ, Finset.sum_range_succ, Finset.sum_range_succ,
    Finset.sum_range_succ, Finset.sum_range_zero]
  norm_num [List.getD]
  rw [Complex.exp_mul_I, Complex.exp_mul_I]
  rw [show (-(2 * (Real.pi : ℂ) * 2) / 4) = ((-Real.pi : ℝ) : ℂ) by push_cast; ring,
    show (-(2 * (Real.pi : ℂ) * 2 * 2) / 4) = ((-(2 * Real.pi) : ℝ) : ℂ) by push_cast; ring,
    ← Complex.ofReal_cos, ← Complex.ofReal_sin, ← Complex.ofReal_cos, ← Complex.ofReal_sin,
    Real.cos_neg, Real.sin_neg, Real.cos_neg, Real.sin_neg,
    Real.cos_pi, Real.sin_pi, Real.cos_two_pi, Real.sin_two_pi]
  push_cast
  ring

/-- The 4-point spectrum of `[0,1,-1,0]`: bin 2 has amplitude `1`. -/
lemma amplAt_tri_two : amplAt [0, 1, -1, 0] 4 2 = 1 := by
  unfold amplAt
  rw [rfftVal_tri_two]
  simp [Complex.abs_apply, Complex.normSq_apply]
  norm_num

/-- A trivial instantiation of the external FLife estimators. -/
noncomputable def trivFns : FLifeFns :=
  ⟨fun _ _ _ _ => 1, fun _ _ _ _ => 1, fun _ _ _ _ => 1⟩

/-! ### Claim theorems -/

/-- Claim C5: for every video cube, S-N parameters, and method argument,
calling `get_life` with `f_span` explicitly set to `0` signals
`InvalidParameterError` (the `f_span` check is the first one taken,
before the method check and before any pixel is processed) and the call
returns no life value. -/
theorem getLife_fspan_zero_raises (es : FLifeFns) (s : TD) (C k : ℝ)
    (method : Option String) (f : Option ℚ) (location : Option (ℤ × ℤ × ℤ × ℤ)) :
    get_life es s C k method f location (some 0)
      = .error (.invalidParameter
          "Frequency span around natural frequency must not be zero") := by
  unfold get_life get_life_core
  rw [if_pos (show defaultSpan (some 0) = some 0 from rfl)]

/-- Claim C4 (amended): passing `f_span` as `None` is replaced by the
default `0.1` before the `f_span is not None` branch is reached, so a
call with `f_span = None` behaves exactly like a call with
`f_span = 0.1` — the window sum is used; the nearest-single-bin branch
of lines 247-250 is dead code. -/
theorem getLife_fspan_none_is_default (es : FLifeFns) (s : TD) (C k : ℝ)
    (method : Option String) (f : Option ℚ) (location : Option (ℤ × ℤ × ℤ × ℤ)) :
    get_life es s C k method f location none
      = get_life es s C k method f location (some (1/10)) := rfl

/-- Claim C10: the value returned by `get_life` is unchanged by a prior
`nf_identification` call (which reassigns `self.ds`), because `get_life`
recomputes `self.N` and `self.ds` from the stored video at entry: its
output is a function of its arguments and the construction-time inputs
only. -/
theorem getLife_unaffected_by_nf (es : FLifeFns) (s : TD) (C k : ℝ)
    (method : Option String) (f : Option ℚ) (location : Option (ℤ × ℤ × ℤ × ℤ))
    (f_span : Option ℚ) (loc2 : Option (ℤ × ℤ × ℤ × ℤ)) (rs : Option ℤ)
    (bp : Option (ℚ × ℚ)) :
    get_life es (nf_identification s loc2 rs bp).2 C k method f location f_span
      = get_life es s C k method f location f_span := rfl

/-- Claim C7 (amended): `nf_identification` does mutate stored state —
it reassigns `self.ds` to the ROI-cropped version of the current delta
cube; `get_life` however reads only the stored video and `dt` (it
recomputes `self.ds` at entry), so two states with the same video and
`dt` give identical `get_life` results and a ROI supplied to one call
cannot change what a later `get_life` call operates on. -/
theorem nf_mutates_getLife_reads_video :
    (∀ (s : TD) loc rs bp, (nf_identification s loc rs bp).2
        = { s with ds := nfCropped s loc rs }) ∧
    (∀ (es : FLifeFns) (C k : ℝ) method f location f_span (s₁ s₂ : TD),
      s₁.x = s₂.x → s₁.dt = s₂.dt →
      get_life es s₁ C k method f location f_span
        = get_life es s₂ C k method f location f_span) := by
  constructor
  · intro s loc rs bp
    rfl
  · intro es C k method f location f_span s₁ s₂ h1 h2
    unfold get_life
    rw [h1, h2]

/-- Claim C7 (counterexample): after `nf_identification` with a 1x1 ROI
on a 2x2 video, the stored delta cube is no longer the one stored before
the call — the claim that the state is unchanged is false. -/
theorem nf_state_changed_cex :
    (nf_identification sTwo (some (0, 0, 1, 1)) none none).2.ds ≠ sTwo.ds := by
  intro h
  have hr := congrArg Cube.rows h
  norm_num [nf_identification, nfCropped, nfROI, Cube.crop, pyIdx, sTwo,
    TD.mkInit, twoCube, Cube.deltaRef] at hr

/-- Claim C7 (witness): the two-state congruence applied to the state
mutated by `nf_identification` against the original state. -/
theorem nf_mutates_getLife_reads_video_witness :
    get_life trivFns (nf_identification sTwo (some (0, 0, 1, 1)) none none).2
        1 1 none none none none
      = get_life trivFns sTwo 1 1 none none none none :=
  nf_mutates_getLife_reads_video.2 trivFns 1 1 none none none none _ _ rfl rfl

/-- Claim C2: with method Modal, natural frequency `f`, and a non-zero
window `sp`, `get_life` computes for every pixel the one-sided amplitude
spectrum `|rfft(history)|·2/N` on bins at multiples of `1/(N·dt)`, sums
`damage_bin = freq_bin / (C / ampl_bin^k)` over every bin whose
frequency lies in `[f - sp, f + sp]`, and assigns the pixel
`life = 1/damage`. -/
theorem getLife_modal_window_formula (es : FLifeFns) (s : TD) (C k : ℝ)
    (fv sp : ℚ) (hsp : sp ≠ 0) :
    ∃ v, get_life es s C k (some "Modal") (some fv) none (some sp)
        = .ok (.map s.x.rows s.x.cols v) ∧
      ∀ i j, v i j = 1 / (∑ m ∈ Finset.range (s.x.frames / 2 + 1),
        if fv - sp ≤ (m : ℚ) / ((s.x.frames : ℚ) * s.dt)
            ∧ (m : ℚ) / ((s.x.frames : ℚ) * s.dt) ≤ fv + sp
        then (((m : ℚ) / ((s.x.frames : ℚ) * s.dt) : ℚ) : ℝ)
          / (C / (Complex.abs (rfftVal (histAt s.x.deltaRef i j) s.x.frames m) * 2
              / s.x.frames) ^ k)
        else 0) := by
  have hc1 : ¬(defaultSpan (some sp) = some 0) := by simpa [defaultSpan] using hsp
  have hc2 : ¬(defaultMethod (some "Modal") ∉ validMethods) := by decide
  have hc3 : ¬(defaultMethod (some "Modal") = some "Modal"
      ∧ (some fv : Option ℚ) = none
      ∧ 0 < (gridOf s.x none).rows * (gridOf s.x none).cols) := by simp
  refine ⟨fun i j => pixelLife es (defaultMethod (some "Modal"))
      (histAt (gridOf s.x none) i j) s.x.frames s.dt C k (some fv)
      (defaultSpan (some sp)), ?_, ?_⟩
  · unfold get_life get_life_core
    rw [if_neg hc1, if_neg hc2, if_neg hc3]
    rfl
  · intro i j
    show 1 / windowDamage (histAt s.x.deltaRef i j) s.x.frames s.dt C k fv sp = _
    rw [windowDamage_eq_sum]
    rfl

/-- Claim C8: for the Modal estimator, holding the history, `dt`, `k`,
`f` and the window fixed, if the damage at the smaller positive
coefficient is strictly positive then increasing `C` strictly increases
the estimated life (`damage = S/C` with `S` independent of `C`). -/
theorem modalLife_strictMono_in_C (hist : List ℝ) (N : ℕ) (dt : ℚ) (k : ℝ)
    (f sp : ℚ) (C₁ C₂ : ℝ) (h1 : 0 < C₁) (h2 : C₁ < C₂)
    (hdam : 0 < windowDamage hist N dt C₁ k f sp) :
    modalLife hist N dt C₁ k f (some sp) < modalLife hist N dt C₂ k f (some sp) := by
  have hSdef := windowDamage_div hist N dt C₁ k f sp
  have hS2 := windowDamage_div hist N dt C₂ k f sp
  set S := ((windowPairs hist N dt f sp).map fun p => (p.1 : ℝ) * p.2 ^ k).sum with hS
  have hSpos : 0 < S := by
    have hp := mul_pos hdam h1
    rw [hSdef, div_mul_cancel₀ _ (ne_of_gt h1)] at hp
    exact hp
  show 1 / windowDamage hist N dt C₁ k f sp < 1 / windowDamage hist N dt C₂ k f sp
  rw [hSdef, hS2, one_div_div, one_div_div]
  exact (div_lt_div_iff_of_pos_right hSpos).mpr h2

/-- An empty selection window makes the Modal damage the empty sum. -/
lemma windowDamage_eq_zero (hist : List ℝ) (N : ℕ) (dt : ℚ) (C k : ℝ) (f sp : ℚ)
    (hband : ∀ q ∈ freqList N dt, ¬(f - sp ≤ q ∧ q ≤ f + sp)) :
    windowDamage hist N dt C k f sp = 0 := by
  unfold windowDamage
  have hnil : windowPairs hist N dt f sp = [] := by
    unfold windowPairs
    rw [List.filter_eq_nil_iff]
    intro p hp
    have h1 := (List.of_mem_zip hp).1
    simp only [decide_eq_true_eq]
    exact hband p.1 h1
  rw [hnil]
  rfl

/-- Claim C9: when no frequency bin lies in `[f - sp, f + sp]`, the
Modal branch computes damage as the empty sum `0` and assigns every
pixel `life = 1/0` (the division-by-zero value numpy reports as `inf`);
no `EmptyBandError` or any other exception is raised — the call still
returns a life map. -/
theorem getLife_modal_empty_band (es : FLifeFns) (s : TD) (C k : ℝ) (f sp : ℚ)
    (hsp : sp ≠ 0)
    (hband : ∀ q ∈ freqList s.x.frames s.dt, ¬(f - sp ≤ q ∧ q ≤ f + sp)) :
    (∀ hist, windowDamage hist s.x.frames s.dt C k f sp = 0) ∧
    ∃ v, get_life es s C k (some "Modal") (some f) none (some sp)
        = .ok (.map s.x.rows s.x.cols v) ∧ ∀ i j, v i j = 1 / (0 : ℝ) := by
  have hzero : ∀ hist, windowDamage hist s.x.frames s.dt C k f sp = 0 :=
    fun hist => windowDamage_eq_zero hist s.x.frames s.dt C k f sp hband
  have hc1 : ¬(defaultSpan (some sp) = some 0) := by simpa [defaultSpan] using hsp
  have hc2 : ¬(defaultMethod (some "Modal") ∉ validMethods) := by decide
  have hc3 : ¬(defaultMethod (some "Modal") = some "Modal"
      ∧ (some f : Option ℚ) = none
      ∧ 0 < (gridOf s.x none).rows * (gridOf s.x none).cols) := by simp
  refine ⟨hzero, fun i j => pixelLife es (defaultMethod (some "Modal"))
      (histAt (gridOf s.x none) i j) s.x.frames s.dt C k (some f)
      (defaultSpan (some sp)), ?_, ?_⟩
  · unfold get_life get_life_core
    rw [if_neg hc1, if_neg hc2, if_neg hc3]
    rfl
  · intro i j
    show 1 / windowDamage (histAt s.x.deltaRef i j) s.x.frames s.dt C k f sp = _
    rw [hzero]

/-- Claim C1: for a well-formed call (valid method, non-zero span, and
`f` supplied whenever the method is Modal), `get_life` with no ROI
returns the full life map with the video's spatial shape; `get_life`
with ROI `(x,y,w,h)` returns a scalar equal to the unweighted arithmetic
mean, over all pixels of the cropped cube, of exactly the life map that
the no-ROI call on the cropped video returns (the map's shape being the
cropped cube's spatial shape). -/
theorem getLife_roi_mean_and_shape (es : FLifeFns) (s : TD) (C k : ℝ)
    (method : Option String) (f : Option ℚ) (f_span : Option ℚ) (x y w h : ℤ)
    (hsp : defaultSpan f_span ≠ some 0)
    (hm : defaultMethod method ∈ validMethods)
    (hf : ¬(defaultMethod method = some "Modal" ∧ f = none)) :
    (∃ v₀, get_life es s C k method f none f_span
        = .ok (.map s.x.rows s.x.cols v₀)) ∧
    ∃ v, get_life es (TD.mkInit (s.x.crop x y w h) s.dt s.x_coord s.y_coord)
          C k method f none f_span
        = .ok (.map (s.x.deltaRef.crop x y w h).rows
            (s.x.deltaRef.crop x y w h).cols v) ∧
      get_life es s C k method f (some (x, y, w, h)) f_span
        = .ok (.scalar ((∑ i ∈ Finset.range (s.x.deltaRef.crop x y w h).rows,
            ∑ j ∈ Finset.range (s.x.deltaRef.crop x y w h).cols, v i j)
          / ((s.x.deltaRef.crop x y w h).rows
              * (s.x.deltaRef.crop x y w h).cols : ℕ))) := by
  have hm' : ¬(defaultMethod method ∉ validMethods) := fun hn => hn hm
  constructor
  · refine ⟨fun i j => pixelLife es (defaultMethod method)
      (histAt (gridOf s.x none) i j) s.x.frames s.dt C k f (defaultSpan f_span), ?_⟩
    unfold get_life get_life_core
    rw [if_neg hsp, if_neg hm', if_neg (fun hc => hf ⟨hc.1, hc.2.1⟩)]
    rfl
  · refine ⟨fun i j => pixelLife es (defaultMethod method)
      (histAt (s.x.deltaRef.crop x y w h) i j) s.x.frames s.dt C k f
      (defaultSpan f_span), ?_, ?_⟩
    · unfold get_life get_life_core
      rw [if_neg hsp, if_neg hm', if_neg (fun hc => hf ⟨hc.1, hc.2.1⟩)]
      rfl
    · unfold get_life get_life_core
      rw [if_neg hsp, if_neg hm', if_neg (fun hc => hf ⟨hc.1, hc.2.1⟩)]
      rfl

/-- Claim C6 (amended): any method string outside the four accepted
names makes `get_life` signal `InvalidParameterError` and return no
life value (when `f_span` was also explicitly `0`, the span error — also
an `InvalidParameterError` — fires first); method Modal with `f` left
as `None` signals `InvalidParameterError` provided the (possibly
ROI-cropped) spatial domain contains at least one pixel — the check
lives inside the per-pixel loop, so over an empty domain no error is
raised. -/
theorem getLife_invalid_method_or_missing_f (es : FLifeFns) (s : TD) (C k : ℝ)
    (method : Option String) (f : Option ℚ) (location : Option (ℤ × ℤ × ℤ × ℤ))
    (f_span : Option ℚ) :
    (defaultMethod method ∉ validMethods →
      ∃ msg, get_life es s C k method f location f_span
        = .error (.invalidParameter msg)) ∧
    (defaultMethod method = some "Modal" → f = none →
      0 < (gridOf s.x location).rows * (gridOf s.x location).cols →
      ∃ msg, get_life es s C k method f location f_span
        = .error (.invalidParameter msg)) := by
  constructor
  · intro hm
    by_cases hsp : defaultSpan f_span = some 0
    · exact ⟨_, by unfold get_life get_life_core; rw [if_pos hsp]⟩
    · exact ⟨_, by unfold get_life get_life_core; rw [if_neg hsp, if_pos hm]⟩
  · intro hmod hf hpix
    by_cases hsp : defaultSpan f_span = some 0
    · exact ⟨_, by unfold get_life get_life_core; rw [if_pos hsp]⟩
    · have hmem : ¬(defaultMethod method ∉ validMethods) := by
        rw [hmod]; decide
      exact ⟨_, by
        unfold get_life get_life_core
        rw [if_neg hsp, if_neg hmem, if_pos ⟨hmod, hf, hpix⟩]⟩

/-- Claim C2 (witness): the window formula instantiated on the impulse
video with `f = 100`, `sp = 1/2`, `C = k = 1`. -/
theorem getLife_modal_window_formula_witness :
    ∃ v, get_life trivFns sImp 1 1 (some "Modal") (some 100) none (some (1/2))
        = .ok (.map sImp.x.rows sImp.x.cols v) ∧
      ∀ i j, v i j = 1 / (∑ m ∈ Finset.range (sImp.x.frames / 2 + 1),
        if 100 - 1/2 ≤ (m : ℚ) / ((sImp.x.frames : ℚ) * sImp.dt)
            ∧ (m : ℚ) / ((sImp.x.frames : ℚ) * sImp.dt) ≤ 100 + 1/2
        then (((m : ℚ) / ((sImp.x.frames : ℚ) * sImp.dt) : ℚ) : ℝ)
          / (1 / (Complex.abs (rfftVal (histAt sImp.x.deltaRef i j) sImp.x.frames m) * 2
              / sImp.x.frames) ^ (1:ℝ))
        else 0) :=
  getLife_modal_window_formula trivFns sImp 1 1 100 (1/2) (by norm_num)

/-- Claim C9 (witness): the empty-band behaviour on the impulse video
with `f = 300` Hz, above the 200 Hz Nyquist bin. -/
theorem getLife_modal_empty_band_witness :
    (∀ hist, windowDamage hist sImp.x.frames sImp.dt 1 1 300 (1/10) = 0) ∧
    ∃ v, get_life trivFns sImp 1 1 (some "Modal") (some 300) none (some (1/10))
        = .ok (.map sImp.x.rows sImp.x.cols v) ∧ ∀ i j, v i j = 1 / (0:ℝ) :=
  getLife_modal_empty_band trivFns sImp 1 1 300 (1/10) (by norm_num) (by
    intro q hq
    have h4 : sImp.x.frames = 4 := rfl
    have hdt : sImp.dt = (1/400 : ℚ) := rfl
    rw [h4, hdt] at hq
    simp only [freqList, freqQ, List.range_succ, List.range_zero, List.map_append,
      List.map_cons, List.map_nil, List.nil_append, List.cons_append,
      List.mem_cons, List.not_mem_nil, or_false] at hq
    rcases hq with h | h | h <;> rw [h] <;> norm_num)

/-- Claim C6 (witness): the unknown method `"Foo"` errors, and Modal
without `f` errors on the (nonempty) full spatial domain of a 2x2
video. -/
theorem getLife_invalid_method_or_missing_f_witness :
    (∃ msg, get_life trivFns sTwo 1 1 (some "Foo") none none none
        = .error (.invalidParameter msg)) ∧
    (∃ msg, get_life trivFns sTwo 1 1 (some "Modal") none none none
        = .error (.invalidParameter msg)) :=
  ⟨(getLife_invalid_method_or_missing_f trivFns sTwo 1 1 (some "Foo")
      none none none).1 (by decide),
   (getLife_invalid_method_or_missing_f trivFns sTwo 1 1 (some "Modal")
      none none none).2 rfl rfl (by decide)⟩

/-- Claim C6 (counterexample): with method Modal, `f = None` and the
zero-area ROI `(0,0,0,0)`, `get_life` raises nothing — the per-pixel
loop never runs, so the missing-frequency check is never reached and the
call returns the mean of an empty map (`0/0`, numpy `nan`) instead of
signalling `InvalidParameterError`. -/
theorem modal_missing_f_empty_roi_cex :
    get_life trivFns sImp 1 1 (some "Modal") none (some (0, 0, 0, 0)) none
      = .ok (.scalar 0) := by
  unfold get_life get_life_core
  rw [if_neg (by norm_num [defaultSpan] : ¬(defaultSpan none = some (0:ℚ)))]
  rw [if_neg (by decide : ¬(defaultMethod (some "Modal") ∉ validMethods))]
  rw [if_neg ?hc]
  case hc =>
    rintro ⟨-, -, hpix⟩
    norm_num [gridOf, Cube.crop, Cube.deltaRef, sImp, impCube, TD.mkInit,
      pyIdx] at hpix
  show Except.ok (LifeOut.scalar _) = _
  norm_num [gridOf, Cube.crop, Cube.deltaRef, sImp, impCube, TD.mkInit, pyIdx]

/-- The frequency bins of a 4-frame video at `dt = 1/400`. -/
lemma freqList_imp : freqList 4 (1/400) = [0, 100, 200] := by
  norm_num [freqList, freqQ, List.range_succ]

/-- The `[99.5, 100.5]` window keeps exactly bin 1 of those bins. -/
lemma windowPairs_imp_100 (hist : List ℝ) :
    windowPairs hist 4 (1/400) 100 (1/2) = [(100, amplAt hist 4 1)] := by
  unfold windowPairs fftList freqList
  norm_num [List.range_succ, List.filter_cons, freqQ]

/-- The window damage of the impulse history at `f = 100`, `C = k = 1`
is `100 · (1/2) = 50 > 0`. -/
lemma windowDamage_imp_pos :
    0 < windowDamage [0, 1, 0, 0] 4 (1/400) 1 1 100 (1/2) := by
  unfold windowDamage
  rw [windowPairs_imp_100]
  norm_num [amplAt_impulse, Real.rpow_one]

/-- Claim C8 (witness): the strict monotonicity in `C` on the impulse
history with `C` going from 1 to 2. -/
theorem modalLife_strictMono_in_C_witness :
    (0:ℝ) < 1 ∧ (1:ℝ) < 2 ∧ 0 < windowDamage [0, 1, 0, 0] 4 (1/400) 1 1 100 (1/2)
    ∧ modalLife [0, 1, 0, 0] 4 (1/400) 1 1 100 (some (1/2))
        < modalLife [0, 1, 0, 0] 4 (1/400) 2 1 100 (some (1/2)) :=
  ⟨by norm_num, by norm_num, windowDamage_imp_pos,
   modalLife_strictMono_in_C [0, 1, 0, 0] 4 (1/400) 1 100 (1/2) 1 2 (by norm_num)
     (by norm_num) windowDamage_imp_pos⟩

/-- The nearest frequency bin to 60 Hz among 0, 100, 200 is bin 1. -/
lemma find_nearest_60 : find_nearest (freqList 4 (1/400)) 60 = (100, 1) := by
  rw [find_nearest, freqList_imp]
  norm_num [List.min?_cons', min_def, List.findIdx_cons, List.getD]

/-- No bin of a 4-frame, `dt = 1/400` video lies within 0.1 Hz of 60. -/
lemma imp_band_60_empty :
    ∀ q ∈ freqList 4 (1/400), ¬((60:ℚ) - 1/10 ≤ q ∧ q ≤ 60 + 1/10) := by
  rw [freqList_imp]
  intro q hq
  simp only [List.mem_cons, List.not_mem_nil, or_false] at hq
  rcases hq with h | h | h <;> rw [h] <;> norm_num

/-- Claim C4 (counterexample): on the impulse video with method Modal,
`f = 60` and `f_span` passed as `None`, the code returns pixel life
`1/0` (the defaulted `[59.9, 60.1]` window selects no bin), whereas the
claim's nearest-single-bin formula evaluates to `1/50`: passing `None`
does not select the nearest-bin computation. -/
theorem modal_fspan_none_not_nearest_cex :
    ∃ v, get_life trivFns sImp 1 1 (some "Modal") (some 60) none none
        = .ok (.map 1 1 v) ∧ v 0 0 = 1 / (0:ℝ)
      ∧ nearestLife [0, 1, 0, 0] 4 (1/400) 1 1 60 = 1 / 50
      ∧ (1 / (0:ℝ)) ≠ 1 / 50 := by
  refine ⟨fun i j => pixelLife trivFns (defaultMethod (some "Modal"))
      (histAt (gridOf sImp.x none) i j) sImp.x.frames sImp.dt 1 1 (some 60)
      (defaultSpan none), ?_, ?_, ?_, ?_⟩
  · unfold get_life get_life_core
    rw [if_neg (by norm_num [defaultSpan] : ¬(defaultSpan none = some (0:ℚ)))]
    rw [if_neg (by decide : ¬(defaultMethod (some "Modal") ∉ validMethods))]
    rw [if_neg ?hc]
    · rfl
    case hc =>
      rintro ⟨-, hnone, -⟩
      exact Option.noConfusion hnone
  · show 1 / windowDamage (histAt (gridOf sImp.x none) 0 0) 4 (1/400) 1 1 60 (1/10)
      = 1 / (0:ℝ)
    rw [windowDamage_eq_zero _ 4 (1/400) 1 1 60 (1/10) imp_band_60_empty]
  · unfold nearestLife
    rw [find_nearest_60]
    have hgd : (fftList [0, 1, 0, 0] 4).getD 1 0 = amplAt [0, 1, 0, 0] 4 1 := by
      norm_num [fftList, List.range_succ, List.getD]
    rw [hgd, amplAt_impulse, Real.rpow_one]
    norm_num
  · norm_num

/-- Claim C1 (witness): the map/mean relation on a 2x2 video with
method Rainflow and ROI `(0,0,1,1)`. -/
theorem getLife_roi_mean_and_shape_witness :
    (∃ v₀, get_life trivFns sTwo 1 1 (some "Rainflow") none none none
        = .ok (.map sTwo.x.rows sTwo.x.cols v₀)) ∧
    ∃ v, get_life trivFns
          (TD.mkInit (sTwo.x.crop 0 0 1 1) sTwo.dt sTwo.x_coord sTwo.y_coord)
          1 1 (some "Rainflow") none none none
        = .ok (.map (sTwo.x.deltaRef.crop 0 0 1 1).rows
            (sTwo.x.deltaRef.crop 0 0 1 1).cols v) ∧
      get_life trivFns sTwo 1 1 (some "Rainflow") none (some (0, 0, 1, 1)) none
        = .ok (.scalar ((∑ i ∈ Finset.range (sTwo.x.deltaRef.crop 0 0 1 1).rows,
            ∑ j ∈ Finset.range (sTwo.x.deltaRef.crop 0 0 1 1).cols, v i j)
          / ((sTwo.x.deltaRef.crop 0 0 1 1).rows
              * (sTwo.x.deltaRef.crop 0 0 1 1).cols : ℕ))) :=
  getLife_roi_mean_and_shape trivFns sTwo 1 1 (some "Rainflow") none none 0 0 1 1
    (by norm_num [defaultSpan]) (by decide) (by decide)

/-! ### The nf_identification cluster (claim C3) -/

lemma pyInt_intCast (k : ℤ) : pyInt (k : ℚ) = k := by
  unfold pyInt
  split <;> simp

lemma pyInt_intCast_sub_two (K : ℤ) : pyInt ((K : ℚ) - 2) = K - 2 := by
  have h : ((K : ℚ) - 2) = ((K - 2 : ℤ) : ℚ) := by push_cast; ring
  rw [h, pyInt_intCast]

/-- The default ROI of `nf_identification`: a 5x5 square whose
upper-left corner sits two pixels up and left of the stored click
coordinate. -/
lemma nfROI_default (s' : TD) :
    nfROI s' none 5
      = (pyInt (s'.x_coord.getD 0) - 2, pyInt (s'.y_coord.getD 0) - 2, 5, 5) := by
  unfold nfROI
  norm_num [show (((5:ℤ):ℚ) - 1) / 2 = 2 from by norm_num, pyInt_intCast_sub_two]

/-- Membership in the flattened in-band amplitude block. -/
lemma mem_nfAmplList_iff (s : TD) (loc : Option (ℤ × ℤ × ℤ × ℤ))
    (rs : Option ℤ) (bp : Option (ℚ × ℚ)) (a : ℝ) :
    a ∈ nfAmplList s loc rs bp ↔
      ∃ m ∈ bandIdx s.N s.dt bp, ∃ i, i < (nfCropped s loc rs).rows ∧
        ∃ j, j < (nfCropped s loc rs).cols ∧
          amplAt (histAt (nfCropped s loc rs) i j) s.N m = a := by
  unfold nfAmplList
  simp only [List.mem_flatMap, List.mem_map, List.mem_range]

/-- Claim C3 (amended): provided the first bin of the full spectrum
whose amplitude equals the in-band maximum lies itself strictly inside
the pass band (the proviso the counterexample refutes in general), and
the band and the crop are nonempty, `nf_identification` returns —
rounded to 2 decimals — the frequency of a bin strictly inside
`(low, high)` whose amplitude is the maximum over all in-band bins and
all pixels of the cropped block; the defaults are the `(5, 100)` Hz
pass band and the 5x5 ROI centred on the stored pixel coordinate. -/
theorem nf_peak_in_band (s : TD) (loc : Option (ℤ × ℤ × ℤ × ℤ))
    (rs : Option ℤ) (bp : Option (ℚ × ℚ))
    (hrows : 0 < (nfCropped s loc rs).rows)
    (hcols : 0 < (nfCropped s loc rs).cols)
    (hbandne : bandIdx s.N s.dt bp ≠ [])
    (hin : (nfBand bp).1 < freqQ s.N s.dt (nfIdx s loc rs bp)
        ∧ freqQ s.N s.dt (nfIdx s loc rs bp) < (nfBand bp).2) :
    (∃ m, ((nfBand bp).1 < freqQ s.N s.dt m ∧ freqQ s.N s.dt m < (nfBand bp).2)
      ∧ (∃ i, i < (nfCropped s loc rs).rows ∧ ∃ j, j < (nfCropped s loc rs).cols ∧
          amplAt (histAt (nfCropped s loc rs) i j) s.N m = nfPeak s loc rs bp)
      ∧ (nf_identification s loc rs bp).1 = round2 (freqQ s.N s.dt m))
    ∧ (∀ m ∈ bandIdx s.N s.dt bp, ∀ i, i < (nfCropped s loc rs).rows →
        ∀ j, j < (nfCropped s loc rs).cols →
          amplAt (histAt (nfCropped s loc rs) i j) s.N m ≤ nfPeak s loc rs bp)
    ∧ nfBand none = (5, 100)
    ∧ (∀ s' : TD, nfROI s' none 5
        = (pyInt (s'.x_coord.getD 0) - 2, pyInt (s'.y_coord.getD 0) - 2, 5, 5)) := by
  classical
  have hne : nfAmplList s loc rs bp ≠ [] := by
    obtain ⟨m, hm⟩ := List.exists_mem_of_ne_nil _ hbandne
    apply List.ne_nil_of_mem (a := amplAt (histAt (nfCropped s loc rs) 0 0) s.N m)
    rw [mem_nfAmplList_iff]
    exact ⟨m, hm, 0, hrows, 0, hcols, rfl⟩
  have hpeakmem : nfPeak s loc rs bp ∈ nfAmplList s loc rs bp :=
    max_getD_mem _ hne
  obtain ⟨m₀, hm₀, i₀, hi₀, j₀, hj₀, hav⟩ := (mem_nfAmplList_iff s loc rs bp _).mp hpeakmem
  have hm₀range : m₀ ∈ List.range (s.N / 2 + 1) := (List.mem_filter.mp hm₀).1
  have hex : ∃ x ∈ List.range (s.N / 2 + 1),
      (fun m => @decide (nfMatch s loc rs bp m) (Classical.propDecidable _)) x = true := by
    exact ⟨m₀, hm₀range, decide_eq_true ⟨i₀, hi₀, j₀, hj₀, hav⟩⟩
  have hlt := List.findIdx_lt_length_of_exists hex
  have hmatch : nfMatch s loc rs bp (nfIdx s loc rs bp) := by
    have hg := List.findIdx_getElem (w := hlt)
    rw [List.getElem_range] at hg
    exact of_decide_eq_true hg
  obtain ⟨i, hi, j, hj, heq⟩ := hmatch
  refine ⟨⟨nfIdx s loc rs bp, hin, ⟨i, hi, j, hj, heq⟩, rfl⟩, ?_, rfl, nfROI_default⟩
  intro m hm i' hi' j' hj'
  apply le_max_getD
  rw [mem_nfAmplList_iff]
  exact ⟨m, hm, i', hi', j', hj', rfl⟩

/-- Claim C3 (counterexample): on the impulse video (delta history
`[0,1,0,0]`, bins 0/100/200 Hz, every amplitude `1/2`) with ROI
`(0,0,1,1)` and pass band `(150, 250)`, the in-band maximum sits at the
200 Hz bin, but `nf_identification` returns `0.0` — the peak value is
located by searching the full spectrum, and bin 0 carries the same
amplitude.  The returned frequency is not even inside the pass band. -/
theorem nf_out_of_band_cex :
    (nf_identification sImp (some (0, 0, 1, 1)) none (some (150, 250))).1 = 0
    ∧ ¬((150:ℚ) < 0 ∧ (0:ℚ) < 250) := by
  classical
  have hband : bandIdx sImp.N sImp.dt (some (150, 250)) = [2] := bandIdx_4_eval
  have hrows := nfCropped_imp_rows
  have hcols := nfCropped_imp_cols
  have hhist := histAt_imp_crop
  have hlist : nfAmplList sImp (some (0, 0, 1, 1)) none (some (150, 250))
      = [amplAt [0, 1, 0, 0] sImp.N 2] := by
    unfold nfAmplList
    rw [hband, hrows, hcols]
    simp only [List.range_succ, List.range_zero, List.nil_append, List.flatMap_cons,
      List.flatMap_nil, List.map_cons, List.map_nil, List.append_nil]
    show [amplAt (histAt (nfCropped sImp (some (0, 0, 1, 1)) none) 0 0) sImp.N 2]
        = [amplAt [0, 1, 0, 0] sImp.N 2]
    rw [hhist]
  have hpeak : nfPeak sImp (some (0, 0, 1, 1)) none (some (150, 250)) = 1/2 := by
    unfold nfPeak
    rw [hlist]
    show ([amplAt [0, 1, 0, 0] 4 2] : List ℝ).max?.getD 0 = 1/2
    rw [amplAt_impulse]
    rfl
  have hmatch0 : nfMatch sImp (some (0, 0, 1, 1)) none (some (150, 250)) 0 := by
    refine ⟨0, ?_, 0, ?_, ?_⟩
    · rw [hrows]; norm_num
    · rw [hcols]; norm_num
    · rw [hhist, hpeak]
      show amplAt [0, 1, 0, 0] 4 0 = 1/2
      exact amplAt_impulse 0
  have h0 : (@decide (nfMatch sImp (some (0, 0, 1, 1)) none (some (150, 250)) 0)
      (Classical.propDecidable _)) = true := by
    rw [decide_eq_true_eq]
    exact hmatch0
  have hidx : nfIdx sImp (some (0, 0, 1, 1)) none (some (150, 250)) = 0 := by
    unfold nfIdx
    have hr3 : List.range (sImp.N / 2 + 1) = [0, 1, 2] := rfl
    rw [hr3]
    simp only [List.findIdx_cons, h0, cond_true]
  constructor
  · show round2 (freqQ sImp.N sImp.dt
      (nfIdx sImp (some (0, 0, 1, 1)) none (some (150, 250)))) = 0
    rw [hidx]
    show round2 (freqQ 4 (1/400) 0) = 0
    norm_num [round2, roundHalfEven, freqQ]
  · norm_num

lemma sqrt_two_lt_two : Real.sqrt 2 < 2 := by
  have h := Real.sqrt_lt_sqrt (by norm_num : (0:ℝ) ≤ 2) (by norm_num : (2:ℝ) < 4)
  rwa [show Real.sqrt 4 = 2 from by
    rw [show (4:ℝ) = 2 ^ 2 from by norm_num]
    exact Real.sqrt_sq (by norm_num)] at h

/-- Claim C3 (witness): all hypotheses of the amended statement hold on
the `[0,1,-1,0]` video with ROI `(0,0,1,1)` and band `(150,250)`: the
in-band peak (amplitude 1 at 200 Hz) is located at bin 2 because bins 0
and 1 carry the distinct amplitudes 0 and `√2/2`. -/
theorem nf_peak_in_band_witness :
    (∃ m, ((nfBand (some (150, 250))).1 < freqQ sTri.N sTri.dt m
        ∧ freqQ sTri.N sTri.dt m < (nfBand (some (150, 250))).2)
      ∧ (∃ i, i < (nfCropped sTri (some (0, 0, 1, 1)) none).rows ∧
          ∃ j, j < (nfCropped sTri (some (0, 0, 1, 1)) none).cols ∧
            amplAt (histAt (nfCropped sTri (some (0, 0, 1, 1)) none) i j) sTri.N m
              = nfPeak sTri (some (0, 0, 1, 1)) none (some (150, 250)))
      ∧ (nf_identification sTri (some (0, 0, 1, 1)) none (some (150, 250))).1
          = round2 (freqQ sTri.N sTri.dt m))
    ∧ (∀ m ∈ bandIdx sTri.N sTri.dt (some (150, 250)),
        ∀ i, i < (nfCropped sTri (some (0, 0, 1, 1)) none).rows →
        ∀ j, j < (nfCropped sTri (some (0, 0, 1, 1)) none).cols →
          amplAt (histAt (nfCropped sTri (some (0, 0, 1, 1)) none) i j) sTri.N m
            ≤ nfPeak sTri (some (0, 0, 1, 1)) none (some (150, 250)))
    ∧ nfBand none = (5, 100)
    ∧ (∀ s' : TD, nfROI s' none 5
        = (pyInt (s'.x_coord.getD 0) - 2, pyInt (s'.y_coord.getD 0) - 2, 5, 5)) := by
  classical
  have hband : bandIdx sTri.N sTri.dt (some (150, 250)) = [2] := bandIdx_4_eval
  have hrows := nfCropped_tri_rows
  have hcols := nfCropped_tri_cols
  have hhist := histAt_tri_crop
  have hlist : nfAmplList sTri (some (0, 0, 1, 1)) none (some (150, 250))
      = [amplAt [0, 1, -1, 0] sTri.N 2] := by
    unfold nfAmplList
    rw [hband, hrows, hcols]
    simp only [List.range_succ, List.range_zero, List.nil_append, List.flatMap_cons,
      List.flatMap_nil, List.map_cons, List.map_nil, List.append_nil]
    show [amplAt (histAt (nfCropped sTri (some (0, 0, 1, 1)) none) 0 0) sTri.N 2]
        = [amplAt [0, 1, -1, 0] sTri.N 2]
    rw [hhist]
  have hpeak : nfPeak sTri (some (0, 0, 1, 1)) none (some (150, 250)) = 1 := by
    unfold nfPeak
    rw [hlist]
    show ([amplAt [0, 1, -1, 0] 4 2] : List ℝ).max?.getD 0 = 1
    rw [amplAt_tri_two]
    rfl
  have hnot0 : ¬ nfMatch sTri (some (0, 0, 1, 1)) none (some (150, 250)) 0 := by
    rintro ⟨i, hi, j, hj, heq⟩
    rw [hrows] at hi
    rw [hcols] at hj
    have hi0 : i = 0 := by omega
    have hj0 : j = 0 := by omega
    subst hi0; subst hj0
    rw [hhist, hpeak] at heq
    have heq' : (0:ℝ) = 1 := by
      rw [show amplAt [0, 1, -1, 0] sTri.N 0 = 0 from amplAt_tri_zero] at heq
      exact heq
    norm_num at heq'
  have hnot1 : ¬ nfMatch sTri (some (0, 0, 1, 1)) none (some (150, 250)) 1 := by
    rintro ⟨i, hi, j, hj, heq⟩
    rw [hrows] at hi
    rw [hcols] at hj
    have hi0 : i = 0 := by omega
    have hj0 : j = 0 := by omega
    subst hi0; subst hj0
    rw [hhist, hpeak] at heq
    have heq' : Real.sqrt 2 / 2 = 1 := by
      rw [show amplAt [0, 1, -1, 0] sTri.N 1 = Real.sqrt 2 / 2 from amplAt_tri_one] at heq
      exact heq
    have h2 := sqrt_two_lt_two
    have : Real.sqrt 2 = 2 := by linarith
    linarith
  have hmatch2 : nfMatch sTri (some (0, 0, 1, 1)) none (some (150, 250)) 2 := by
    refine ⟨0, ?_, 0, ?_, ?_⟩
    · rw [hrows]; norm_num
    · rw [hcols]; norm_num
    · rw [hhist, hpeak]
      show amplAt [0, 1, -1, 0] 4 2 = 1
      exact amplAt_tri_two
  have h0 : (@decide (nfMatch sTri (some (0, 0, 1, 1)) none (some (150, 250)) 0)
      (Classical.propDecidable _)) = false := by
    rw [decide_eq_false_iff_not]
    exact hnot0
  have h1 : (@decide (nfMatch sTri (some (0, 0, 1, 1)) none (some (150, 250)) 1)
      (Classical.propDecidable _)) = false := by
    rw [decide_eq_false_iff_not]
    exact hnot1
  have h2t : (@decide (nfMatch sTri (some (0, 0, 1, 1)) none (some (150, 250)) 2)
      (Classical.propDecidable _)) = true := by
    rw [decide_eq_true_eq]
    exact hmatch2
  have hidx : nfIdx sTri (some (0, 0, 1, 1)) none (some (150, 250)) = 2 := by
    unfold nfIdx
    have hr3 : List.range (sTri.N / 2 + 1) = [0, 1, 2] := rfl
    rw [hr3]
    simp only [List.findIdx_cons, h0, h1, h2t, cond_true, cond_false]
  have hin : (nfBand (some ((150:ℚ), (250:ℚ)))).1
        < freqQ sTri.N sTri.dt (nfIdx sTri (some (0, 0, 1, 1)) none (some (150, 250)))
      ∧ freqQ sTri.N sTri.dt (nfIdx sTri (some (0, 0, 1, 1)) none (some (150, 250)))
        < (nfBand (some ((150:ℚ), (250:ℚ)))).2 := by
    rw [hidx]
    constructor
    · show (150:ℚ) < freqQ 4 (1/400) 2
      norm_num [freqQ]
    · show freqQ 4 (1/400) 2 < (250:ℚ)
      norm_num [freqQ]
  exact nf_peak_in_band sTri (some (0, 0, 1, 1)) none (some (150, 250))
    (by rw [hrows]; norm_num) (by rw [hcols]; norm_num) (by rw [hband]; simp) hin

end IRFLife
